import Mathlib

/-!
Shallow embedding of the conversation/session core of the `node.js_auth`
backend (Lexi chat): the mongoose message/conversation stores
(`historyService`), the time utilities (`utils/time.js`), the turn
orchestrator (`chatService.chatWithLexi`) and the input validation of the
chat controller.  Times are modelled as minutes since the Unix epoch
(`Int`), matching the minute granularity of the timezone offsets the time
utilities work with.  Database state is a pair of in-memory lists plus a
fresh-id counter and a monotone clock.
-/

namespace LexiChat

/-- A content block of a message: the mongoose `messageSchema` stores a list
of blocks, each with a required `type` and a required `text`. -/
structure ContentBlock where
  type : String
  text : String
deriving DecidableEq, Repr

/-- A persisted chat message (mongoose `messageSchema`): role, content
blocks, owning conversation and the `created_at` timestamp that mongoose
`timestamps` adds. -/
structure Message where
  id : Nat
  role : String
  content : List ContentBlock
  conversation : Nat
  created_at : Int
deriving DecidableEq, Repr

/-- A persisted conversation (mongoose `conversationSchema`): an array of
message ids, an owner and the `created_at` timestamp. -/
structure Conversation where
  id : Nat
  messages : List Nat
  owner : Nat
  created_at : Int
deriving DecidableEq, Repr

/-- The database state: the message and conversation collections, the next
fresh object id, and the current clock (minutes since epoch). -/
structure Store where
  msgs : List Message
  convs : List Conversation
  nextId : Nat
  now : Int
deriving DecidableEq, Repr

/-- The `HttpError` class of `utils/httpError.js`. -/
structure HttpError where
  status : Nat
  message : String
  details : String
deriving DecidableEq, Repr

/-- Look a message up by id (mongoose `populate` resolution). -/
def lookupMsg (s : Store) (mid : Nat) : Option Message :=
  s.msgs.find? (fun m => m.id == mid)

/-- Look a conversation up by id (mongoose `findByIdAndUpdate` lookup). -/
def lookupConv (s : Store) (cid : Nat) : Option Conversation :=
  s.convs.find? (fun c => c.id == cid)

/-- The comparison used by `populate` with `sort: created_at ascending`. -/
def byCreatedAt (a b : Message) : Bool :=
  a.created_at ≤ b.created_at

/-- Resolve a conversation's message references in `created_at` order: the
read path of `updateConversation`, namely
`populate(messages, sort created_at ascending)`.  References that do not
resolve are dropped, as mongoose `populate` drops them. -/
def resolveMessages (s : Store) (c : Conversation) : List Message :=
  (c.messages.filterMap (lookupMsg s)).mergeSort byCreatedAt

/-- Mongo `$addToSet`: append the id only when it is not already present. -/
def addToSet (l : List Nat) (x : Nat) : List Nat :=
  if x ∈ l then l else l ++ [x]

/-- `historyService.newConversation`: create an empty conversation owned by
`userId`. -/
def newConversation (s : Store) (userId : Nat) : Store × Conversation :=
  let c : Conversation :=
    { id := s.nextId, messages := [], owner := userId, created_at := s.now }
  ({ s with convs := s.convs ++ [c], nextId := s.nextId + 1, now := s.now + 1 }, c)

/-- `historyService.newMessage`: persist one message whose content is the
single text block built from `input`. -/
def newMessage (s : Store) (role : String) (input : String) (conversationId : Nat) :
    Store × Message :=
  let m : Message :=
    { id := s.nextId, role := role,
      content := [{ type := "text", text := input }],
      conversation := conversationId, created_at := s.now }
  ({ s with msgs := s.msgs ++ [m], nextId := s.nextId + 1, now := s.now + 1 }, m)

/-- `historyService.updateConversation`: `findByIdAndUpdate` with
`$addToSet messages` and `new: true`, then `populate` sorted by
`created_at`.  A missing conversation id makes `findByIdAndUpdate` resolve
to `null`, modelled as `none`; no error is raised. -/
def updateConversation (s : Store) (conversationId messageId : Nat) :
    Store × Option (Conversation × List Message) :=
  match lookupConv s conversationId with
  | none => (s, none)
  | some c =>
    let c' := { c with messages := addToSet c.messages messageId }
    let s' := { s with
      convs := s.convs.map (fun d => if d.id == conversationId then c' else d) }
    (s', some (c', resolveMessages s' c'))

/-! ### Time utilities (`utils/time.js`), modelled at minute granularity.

`moment().utc()` is the `nowUTC` argument; `subtract(offset, minutes)` and
`add(offset, minutes)` are integer subtraction and addition;
`startOf(day)` and `startOf(isoWeek)` truncate to local midnight and to
the local Monday midnight of the ISO week.  1970-01-01 (epoch day 0) was a
Thursday, so epoch day `d` has ISO weekday index `(d + 3) mod 7` days
after Monday. -/

def minutesPerDay : Int := 1440

/-- `moment.startOf(day)` on a minutes-since-epoch instant. -/
def startOfDayMin (t : Int) : Int :=
  minutesPerDay * (t.fdiv minutesPerDay)

/-- `moment.startOf(isoWeek)` on a minutes-since-epoch instant: midnight of
the Monday of the current ISO week. -/
def startOfIsoWeekMin (t : Int) : Int :=
  let day := t.fdiv minutesPerDay
  let back := (day + 3).emod 7
  minutesPerDay * (day - back)

/-- `getStartOfCurrentWeekUTC`: shift to local, truncate to the ISO week
start, shift back to UTC. -/
def getStartOfCurrentWeekUTC (nowUTC userTimezoneOffset : Int) : Int :=
  startOfIsoWeekMin (nowUTC - userTimezoneOffset) + userTimezoneOffset

/-- `getStartOfPreviousWeekUTC`: the current week start minus seven days. -/
def getStartOfPreviousWeekUTC (nowUTC userTimezoneOffset : Int) : Int :=
  getStartOfCurrentWeekUTC nowUTC userTimezoneOffset - 7 * minutesPerDay

/-- `getStartOfTodayUTC`: shift to local, truncate to local midnight, shift
back to UTC. -/
def getStartOfTodayUTC (nowUTC userTimezoneOffset : Int) : Int :=
  startOfDayMin (nowUTC - userTimezoneOffset) + userTimezoneOffset

/-- `getStartOfYesterdayUTC`: the start of today minus one day. -/
def getStartOfYesterdayUTC (nowUTC userTimezoneOffset : Int) : Int :=
  getStartOfTodayUTC nowUTC userTimezoneOffset - minutesPerDay

/-- `getDaysBeforeUTC`: the start of today minus `daysBefore` days. -/
def getDaysBeforeUTC (nowUTC userTimezoneOffset daysBefore : Int) : Int :=
  getStartOfTodayUTC nowUTC userTimezoneOffset - daysBefore * minutesPerDay

/-- Day count since 1970-01-01 of a Gregorian date, by the standard
days-from-civil computation; used only to name concrete instants in
theorem statements. -/
def epochDayOfDate (y m d : Int) : Int :=
  let y' := if m ≤ 2 then y - 1 else y
  let era := (if 0 ≤ y' then y' else y' - 399).fdiv 400
  let yoe := y' - era * 400
  let doy := (153 * (m + (if 2 < m then -3 else 9)) + 2).fdiv 5 + d - 1
  let doe := yoe * 365 + yoe.fdiv 4 - yoe.fdiv 100 + doy
  era * 146097 + doe - 719468

/-- Minutes since epoch of a UTC wall-clock reading. -/
def utcMinutes (y mo d h mi : Int) : Int :=
  minutesPerDay * epochDayOfDate y mo d + 60 * h + mi

/-! ### Stats aggregation and retention (`historyService`). -/

/-- The Mongo counting predicate `size of messages strictly greater than 5`
used by every engagement bucket of `getKidStats`. -/
def substantive (c : Conversation) : Bool :=
  5 < c.messages.length

/-- A `conversationModel.find` with owner filter, a `created_at` lower
bound and the substantive-size predicate (the `currentWeek` and `today`
bucket queries). -/
def chatsSince (s : Store) (kidId : Nat) (start : Int) : List Conversation :=
  s.convs.filter (fun c => c.owner == kidId && start ≤ c.created_at && substantive c)

/-- A `conversationModel.find` with owner filter, a half-open `created_at`
range and the substantive-size predicate (the `previousWeek` and
`yesterday` bucket queries). -/
def chatsBetween (s : Store) (kidId : Nat) (start stop : Int) : List Conversation :=
  s.convs.filter
    (fun c => c.owner == kidId && start ≤ c.created_at && c.created_at < stop && substantive c)

structure KidStats where
  currentWeekStats : Nat
  previousWeekStats : Nat
  todayStats : Nat
  yesterdayStats : Nat
deriving DecidableEq, Repr

/-- `historyService.getKidStats`: the four engagement counts. -/
def getKidStats (s : Store) (kidId : Nat) (nowUTC timezoneOffset : Int) : KidStats :=
  let currentWeekStart := getStartOfCurrentWeekUTC nowUTC timezoneOffset
  let previousWeekStart := getStartOfPreviousWeekUTC nowUTC timezoneOffset
  let todayStart := getStartOfTodayUTC nowUTC timezoneOffset
  let yesterdayStart := getStartOfYesterdayUTC nowUTC timezoneOffset
  { currentWeekStats := (chatsSince s kidId currentWeekStart).length
    previousWeekStats := (chatsBetween s kidId previousWeekStart currentWeekStart).length
    todayStats := (chatsSince s kidId todayStart).length
    yesterdayStats := (chatsBetween s kidId yesterdayStart todayStart).length }

/-- `historyService.deleteOlderThan`: `deleteMany` of the user's
conversations created strictly before `getDaysBeforeUTC`. -/
def deleteOlderThan (s : Store) (kidId : Nat) (nowUTC timezoneOffset daysBefore : Int) :
    Store :=
  let daysBeforeDateUTC := getDaysBeforeUTC nowUTC timezoneOffset daysBefore
  { s with convs :=
      s.convs.filter (fun c => !(c.owner == kidId && c.created_at < daysBeforeDateUTC)) }

/-! ### Turn orchestrator (`chatService.chatWithLexi`).

The OpenAI collaborator is abstracted as a function from the ordered
context window to `Except String String`; the system-prompt composition
(`setSystemPrompt`) only prepends a constant extra message and is not
needed by any property below.  Exceptions escaping the `try` block are
wrapped as `HttpError` 500 with the fixed message, as in the source
`catch`. -/

structure Turn where
  role : String
  content : List ContentBlock
deriving DecidableEq, Repr

/-- The per-message mapping of `chatWithLexi`: keep the role and only the
first content block (`message.content[0]`).  An empty content array makes
the source throw a `TypeError` at `content[0].type`, modelled as `none`. -/
def toTurn (m : Message) : Option Turn :=
  match m.content.head? with
  | none => none
  | some b => some { role := m.role, content := [{ type := b.type, text := b.text }] }

/-- JS `Array.prototype.slice(-n)`: the last `n` elements, or the whole
list when it is shorter than `n`. -/
def jsSliceLast (n : Nat) (l : List α) : List α :=
  l.drop (l.length - n)

/-- The context window of `chatWithLexi`: `currentConversation.slice(-20)`. -/
def contextWindow (turns : List Turn) : List Turn :=
  jsSliceLast 20 turns

/-- The wrapped error of `chatWithLexi`'s `catch` block. -/
def aiFailure (details : String) : HttpError :=
  { status := 500, message := "Error during AI response generation.", details := details }

/-- `chatService.chatWithLexi`: persist the user turn, append it to the
conversation, build the bounded context window, invoke the model, persist
and append the assistant turn.  The returned store reflects every
mutation performed before a failure (the database writes are not rolled
back by the `catch`). -/
def chatWithLexi (s : Store) (textUserInput : String) (conversationId : Nat)
    (llm : List Turn → Except String String) : Store × Except HttpError String :=
  let r1 := newMessage s "user" textUserInput conversationId
  let r2 := updateConversation r1.1 conversationId r1.2.id
  match r2.2 with
  | none =>
    (r2.1, Except.error (aiFailure "TypeError: reading messages of null"))
  | some updated =>
    match updated.2.mapM toTurn with
    | none =>
      (r2.1, Except.error (aiFailure "TypeError: reading type of undefined"))
    | some turns =>
      match llm (contextWindow turns) with
      | Except.error e => (r2.1, Except.error (aiFailure e))
      | Except.ok reply =>
        let r3 := newMessage r2.1 "assistant" reply conversationId
        let r4 := updateConversation r3.1 conversationId r3.2.id
        (r4.1, Except.ok reply)

/-! ### Chat controller input validation (`chatController`). -/

/-- A request-body field as the controller sees it: either not a string at
all, or a string value. -/
inductive JsInput where
  | notString : JsInput
  | str : String → JsInput
deriving DecidableEq, Repr

def noConversationIdError : HttpError :=
  { status := 400, message := "Conversation ID is not provided.", details := "" }

def badRequestError : HttpError :=
  { status := 400, message := "Bad Request", details := "Invalid user input" }

def inputTooLongError : HttpError :=
  { status := 400, message := "User input is too long.",
    details := "The maximum length is 4096 characters." }

/-- The `/chat/text` handler: conversation-id presence check, the
`typeof userInput` and emptiness check, the 4096-character bound, then the
call into `chatWithLexi`. -/
def postText (s : Store) (conversationId : Option Nat) (userInput : JsInput)
    (llm : List Turn → Except String String) : Store × Except HttpError String :=
  match conversationId with
  | none => (s, Except.error noConversationIdError)
  | some cid =>
    match userInput with
    | JsInput.notString => (s, Except.error badRequestError)
    | JsInput.str t =>
      if t = "" then (s, Except.error badRequestError)
      else if 4096 < t.length then (s, Except.error inputTooLongError)
      else chatWithLexi s t cid llm

/-! ### JS semantics of the `/chat/voice` length guard.

The guard in the source reads `typeof textUserInput.length > 1000`:
`typeof` binds tighter than `>`, so the string `number` is compared with
the number `1000`. -/

/-- A JS primitive value, as far as the guard needs. -/
inductive JsValue where
  | num : Int → JsValue
  | str : String → JsValue
deriving DecidableEq, Repr

/-- The JS `typeof` operator on the modelled values. -/
def jsTypeof : JsValue → String
  | JsValue.num _ => "number"
  | JsValue.str _ => "string"

/-- Decimal value of a digit string, `none` when some character is not a
digit or the string is empty. -/
def digitsVal (l : List Char) : Option Nat :=
  if l.isEmpty then none
  else if l.all Char.isDigit then
    some (l.foldl (fun acc c => acc * 10 + (c.toNat - 48)) 0)
  else none

/-- ECMAScript `ToNumber` of a string, restricted to optional-sign decimal
numerals: any other string (such as the string `number` that `typeof`
yields) gives `NaN`, modelled as `none`. -/
def strToNumber : List Char → Option Int
  | '-' :: rest => (digitsVal rest).map (fun n => -(n : Int))
  | l => (digitsVal l).map (fun n => (n : Int))

/-- ECMAScript `ToNumber`, restricted to the values above; a string that is
not an integer numeral gives `NaN`, modelled as `none`. -/
def jsToNumber : JsValue → Option Int
  | JsValue.num n => some n
  | JsValue.str s => strToNumber s.data

/-- The JS relational comparison `a > b`: both sides go through
`ToNumber`, and any `NaN` makes the comparison false. -/
def jsGreaterThan (a b : JsValue) : Bool :=
  match jsToNumber a, jsToNumber b with
  | some x, some y => y < x
  | _, _ => false

/-- The voice-endpoint length guard, exactly as written in the source:
`typeof textUserInput.length > 1000`. -/
def voiceLengthGuard (textUserInput : String) : Bool :=
  jsGreaterThan (JsValue.str (jsTypeof (JsValue.num (textUserInput.length : Int))))
    (JsValue.num 1000)

def invalidVoiceError : HttpError :=
  { status := 400, message := "Invalid voice content.",
    details := "Voice input was not properly recognized." }

def voiceTooLongError : HttpError :=
  { status := 400, message := "User question is too long.",
    details := "The question text content is limited to 1000 characters." }

/-- The transcription validation of the `/chat/voice` handler: the
`typeof`-and-emptiness check, then the length guard as written in the
source. -/
def voiceValidate : JsInput → Option HttpError
  | JsInput.notString => some invalidVoiceError
  | JsInput.str s =>
    if s = "" then some invalidVoiceError
    else if voiceLengthGuard s then some voiceTooLongError
    else none

/-! ### Well-formedness of reachable stores.

Every persisted document got its id from the fresh-id counter, and every
persisted message has at least one content block (`newMessage` always
writes exactly one).  These invariants hold of every store the operations
can build and are the hypotheses of the stateful theorems below. -/

def Store.WF (s : Store) : Prop :=
  (∀ m ∈ s.msgs, m.id < s.nextId) ∧
  (∀ c ∈ s.convs, ∀ mid ∈ c.messages, mid < s.nextId) ∧
  (∀ m ∈ s.msgs, m.content ≠ [])

/-! ### Concrete artifacts used by the witness theorems. -/

def demoStore : Store :=
  { msgs := [], convs := [{ id := 0, messages := [], owner := 7, created_at := 0 }],
    nextId := 1, now := 5 }

def demoTurn : Turn := { role := "user", content := [{ type := "text", text := "q" }] }

def longText : String := String.mk (List.replicate 4097 'a')

def longTranscript : String := String.mk (List.replicate 1001 'x')

def demoConv6 : Conversation :=
  { id := 1, messages := [1, 2, 3, 4, 5, 6], owner := 7, created_at := 10 }

def statsStore : Store := { msgs := [], convs := [demoConv6], nextId := 9, now := 20 }

def idemMsg : Message :=
  { id := 0, role := "user", content := [{ type := "text", text := "q" }],
    conversation := 0, created_at := 0 }

def idemConv : Conversation :=
  { id := 0, messages := [], owner := 7, created_at := 0 }

def idemStore : Store :=
  { msgs := [idemMsg], convs := [idemConv], nextId := 1, now := 1 }

def demoConvForCount : Conversation :=
  { id := 3, messages := [], owner := 9, created_at := 0 }

def countStore : Store :=
  { msgs := [], convs := [demoConvForCount], nextId := 1, now := 5 }

/-- The conversation record after `$addToSet` of one message id. -/
def appended (c : Conversation) (mid : Nat) : Conversation :=
  { c with messages := addToSet c.messages mid }

/-- The store after the conversation with id `cid` has been replaced by
`c'` (the write of `findByIdAndUpdate`). -/
def updatedStore (s : Store) (cid : Nat) (c' : Conversation) : Store :=
  { s with convs := s.convs.map (fun d => if d.id == cid then c' else d) }

/-- The store after the user's turn of `chatWithLexi` has been persisted
and appended to the conversation `c` found under `cid`. -/
def afterUserStore (s : Store) (input : String) (cid : Nat) (c : Conversation) : Store :=
  updatedStore (newMessage s "user" input cid).1 cid
    (appended c (newMessage s "user" input cid).2.id)

/-! ### Helper lemmas. -/

theorem lookupConv_id (s : Store) (cid : Nat) (c : Conversation)
    (h : lookupConv s cid = some c) : c.id = cid := by
  unfold lookupConv at h
  simpa using List.find?_some h

theorem lookupConv_mem (s : Store) (cid : Nat) (c : Conversation)
    (h : lookupConv s cid = some c) : c ∈ s.convs :=
  List.mem_of_find?_eq_some h

theorem lookupMsg_id (s : Store) (mid : Nat) (m : Message)
    (h : lookupMsg s mid = some m) : m.id = mid := by
  unfold lookupMsg at h
  simpa using List.find?_some h

theorem lookupMsg_mem (s : Store) (mid : Nat) (m : Message)
    (h : lookupMsg s mid = some m) : m ∈ s.msgs :=
  List.mem_of_find?_eq_some h

theorem mem_addToSet_self (l : List Nat) (x : Nat) : x ∈ addToSet l x := by
  by_cases h : x ∈ l <;> simp [addToSet, h]

theorem addToSet_of_mem {l : List Nat} {x : Nat} (h : x ∈ l) : addToSet l x = l := by
  simp [addToSet, h]

theorem addToSet_of_not_mem {l : List Nat} {x : Nat} (h : x ∉ l) :
    addToSet l x = l ++ [x] := by
  simp [addToSet, h]

theorem find?_map_update (l : List Conversation) (cid : Nat) (c c' : Conversation)
    (h : l.find? (fun d => d.id == cid) = some c) (hid : c'.id = cid) :
    (l.map (fun d => if d.id == cid then c' else d)).find? (fun d => d.id == cid)
      = some c' := by
  induction l with
  | nil => simp at h
  | cons d ds ih =>
    by_cases hd : d.id = cid
    · have hd' : (d.id == cid) = true := by simpa using hd
      simp only [List.map_cons, if_pos hd']
      exact List.find?_cons_of_pos _ (by simpa using hid)
    · have hd' : (d.id == cid) = false := by simpa using hd
      rw [List.find?_cons_of_neg _ (by simp [hd])] at h
      simp only [List.map_cons, if_neg (by simp [hd] : ¬((d.id == cid) = true))]
      rw [List.find?_cons_of_neg _ (by simp [hd])]
      exact ih h

theorem updateConversation_found (s : Store) (cid mid : Nat) (c : Conversation)
    (h : lookupConv s cid = some c) :
    updateConversation s cid mid =
      (updatedStore s cid (appended c mid),
       some (appended c mid,
         resolveMessages (updatedStore s cid (appended c mid)) (appended c mid))) := by
  unfold updateConversation updatedStore appended
  rw [h]

theorem lookupConv_updatedStore (s : Store) (cid : Nat) (c c' : Conversation)
    (h : lookupConv s cid = some c) (hid : c'.id = cid) :
    lookupConv (updatedStore s cid c') cid = some c' :=
  find?_map_update s.convs cid c c' h hid

theorem appended_of_mem {c : Conversation} {x : Nat} (h : x ∈ c.messages) :
    appended c x = c := by
  unfold appended
  rw [addToSet_of_mem h]

theorem updateConversation_missing (s : Store) (cid mid : Nat)
    (h : lookupConv s cid = none) :
    updateConversation s cid mid = (s, none) := by
  unfold updateConversation
  rw [h]

theorem resolveMessages_congr (s t : Store) (c d : Conversation)
    (hm : t.msgs = s.msgs) (hc : d.messages = c.messages) :
    resolveMessages t d = resolveMessages s c := by
  unfold resolveMessages lookupMsg
  rw [hm, hc]

theorem filterMap_lookup_count (s : Store) (mid : Nat) (m : Message)
    (hm : lookupMsg s mid = some m) (l : List Nat) :
    ((l.filterMap (lookupMsg s)).filter (fun x => x.id == mid)).length = l.count mid := by
  induction l with
  | nil => rfl
  | cons x xs ih =>
    by_cases hx : x = mid
    · subst hx
      rw [List.filterMap_cons, hm]
      have hid : (m.id == x) = true := by simpa using lookupMsg_id s x m hm
      simp [List.filter_cons, hid, ih, List.count_cons]
    · cases hfind : lookupMsg s x with
      | none =>
        simp [List.filterMap_cons, hfind, ih, List.count_cons, hx]
      | some m' =>
        have hid : m'.id = x := lookupMsg_id s x m' hfind
        have hid' : (m'.id == mid) = false := by simp [hid, hx]
        simp [List.filterMap_cons, hfind, List.filter_cons, hid', ih,
          List.count_cons, hx]

theorem mapM_toTurn_total (l : List Message) (h : ∀ m ∈ l, m.content ≠ []) :
    ∃ turns : List Turn, l.mapM toTurn = some turns := by
  induction l with
  | nil => exact ⟨[], rfl⟩
  | cons m ms ih =>
    obtain ⟨ts, hts⟩ := ih (fun x hx => h x (List.mem_cons_of_mem _ hx))
    obtain ⟨t, ht⟩ : ∃ t, toTurn m = some t := by
      cases hcontent : m.content with
      | nil => exact absurd hcontent (h m (List.mem_cons_self m ms))
      | cons b bs =>
        refine ⟨{ role := m.role, content := [{ type := b.type, text := b.text }] }, ?_⟩
        simp [toTurn, hcontent]
    refine ⟨t :: ts, ?_⟩
    rw [List.mapM_cons, ht, hts]
    rfl

/-! ### Claim theorems. -/

/-- C4: for every store and every conversation (hence after any order of
`appendMessage` calls), the message list produced by the Conversation
Store's read path (`populate` sorted by `created_at`) is in non-decreasing
creation-timestamp order. -/
theorem resolveMessages_sorted_created_at (s : Store) (c : Conversation) :
    List.Pairwise (fun a b : Message => a.created_at ≤ b.created_at)
      (resolveMessages s c) := by
  have h := @List.sorted_mergeSort Message byCreatedAt
    (fun a b c hab hbc => by
      simp only [byCreatedAt, decide_eq_true_eq] at hab hbc ⊢
      omega)
    (fun a b => by
      simp only [byCreatedAt, Bool.or_eq_true, decide_eq_true_eq]
      omega)
    (c.messages.filterMap (lookupMsg s))
  exact h.imp (fun hab => by simpa [byCreatedAt] using hab)

/-- C3: the context window built by `chatWithLexi` has exactly 20 entries,
equal to the last 20 chronological turns in order, when the history has at
least 20 turns, and equals the whole history otherwise. -/
theorem contextWindow_last_twenty (turns : List Turn) :
    (20 ≤ turns.length →
      (contextWindow turns).length = 20 ∧
      contextWindow turns = (turns.reverse.take 20).reverse) ∧
    (turns.length < 20 → contextWindow turns = turns) := by
  constructor
  · intro h
    constructor
    · simp only [contextWindow, jsSliceLast, List.length_drop]
      omega
    · rw [List.take_reverse, List.reverse_reverse]
      rfl
  · intro h
    have h0 : turns.length - 20 = 0 := by omega
    simp [contextWindow, jsSliceLast, h0]

/-- C7: with `timezoneOffsetMinutes = -120` and now = Wednesday
2024-06-12 10:00 local (08:00 UTC), the computed current-week start is the
UTC instant 2024-06-09 22:00, whose local reading is Monday 2024-06-10
00:00 (epoch day 0 was a Thursday, so `(d + 3) mod 7` counts days after
Monday: 0 for 2024-06-10 means Monday, 2 for 2024-06-12 means
Wednesday). -/
theorem startOfCurrentWeek_example :
    getStartOfCurrentWeekUTC (utcMinutes 2024 6 12 8 0) (-120) = utcMinutes 2024 6 9 22 0 ∧
    utcMinutes 2024 6 12 8 0 - (-120) = utcMinutes 2024 6 12 10 0 ∧
    getStartOfCurrentWeekUTC (utcMinutes 2024 6 12 8 0) (-120) - (-120)
      = utcMinutes 2024 6 10 0 0 ∧
    (epochDayOfDate 2024 6 10 + 3).emod 7 = 0 ∧
    (epochDayOfDate 2024 6 12 + 3).emod 7 = 2 := by
  refine ⟨by decide, by decide, by decide, by decide, by decide⟩

/-- C8: the retention sweep with 15 retention days removes exactly the
conversations of the given owner created strictly before local midnight of
today minus 15 days (converted back to UTC), and keeps every other
conversation, including all conversations of other owners. -/
theorem deleteOlderThan_retention_boundary (s : Store) (kid : Nat) (nowUTC tz : Int)
    (c : Conversation) :
    c ∈ (deleteOlderThan s kid nowUTC tz 15).convs ↔
      c ∈ s.convs ∧
        ¬(c.owner = kid ∧
            c.created_at < (startOfDayMin (nowUTC - tz) - 15 * minutesPerDay) + tz) := by
  have hb : getDaysBeforeUTC nowUTC tz 15 =
      (startOfDayMin (nowUTC - tz) - 15 * minutesPerDay) + tz := by
    simp only [getDaysBeforeUTC, getStartOfTodayUTC]
    ring
  simp only [deleteOlderThan, List.mem_filter, hb, Bool.not_eq_eq_eq_not, Bool.not_true,
    Bool.and_eq_false_imp, beq_iff_eq, decide_eq_false_iff_not, not_lt]
  constructor
  · rintro ⟨hmem, himp⟩
    refine ⟨hmem, ?_⟩
    rintro ⟨hown, hlt⟩
    exact absurd hlt (not_lt.mpr (himp hown))
  · rintro ⟨hmem, hnot⟩
    refine ⟨hmem, fun hown => ?_⟩
    by_contra hgt
    exact hnot ⟨hown, by omega⟩

/-- C9: the `/chat/text` handler rejects a non-string, empty or
over-4096-character `userInput` with a 400 error and leaves the store
untouched (no message is persisted); any other string input proceeds into
`chatWithLexi` unchanged. -/
theorem postText_validation (s : Store) (cid : Nat) (t : String)
    (llm : List Turn → Except String String) :
    postText s (some cid) JsInput.notString llm = (s, Except.error badRequestError) ∧
    postText s (some cid) (JsInput.str "") llm = (s, Except.error badRequestError) ∧
    (4096 < t.length →
      postText s (some cid) (JsInput.str t) llm = (s, Except.error inputTooLongError)) ∧
    (t ≠ "" → t.length ≤ 4096 →
      postText s (some cid) (JsInput.str t) llm = chatWithLexi s t cid llm) := by
  refine ⟨rfl, rfl, ?_, ?_⟩
  · intro hlen
    have ht : ¬(t = "") := by
      intro h
      rw [h] at hlen
      simp at hlen
    simp [postText, ht, hlen]
  · intro ht hlen
    simp [postText, ht, Nat.not_lt.mpr hlen]

/-- C10: the voice endpoint's length guard compares the string returned by
`typeof` with the number 1000, which is false for every transcription, so
the too-long branch is unreachable and every non-empty transcription
passes validation regardless of its length. -/
theorem voiceLengthGuard_always_false (s : String) (h : s ≠ "") :
    voiceLengthGuard s = false ∧ voiceValidate (JsInput.str s) = none := by
  have hg : voiceLengthGuard s = false := by
    have hr : voiceLengthGuard s = jsGreaterThan (JsValue.str "number") (JsValue.num 1000) :=
      rfl
    rw [hr]
    decide
  refine ⟨hg, ?_⟩
  simp [voiceValidate, h, hg]

/-- C1 counterexample: appending to a conversation id absent from the
store does not fail with a `NotFoundError`: `updateConversation` returns
`none` (the `null` of `findByIdAndUpdate`) and leaves the store unchanged,
and the surrounding turn surfaces the generic 500
`Error during AI response generation.` error, not a 404. -/
theorem updateConversation_missing_no_notFoundError :
    (updateConversation { msgs := [], convs := [], nextId := 0, now := 0 } 42 7).2 = none ∧
    (updateConversation { msgs := [], convs := [], nextId := 0, now := 0 } 42 7).1
      = { msgs := [], convs := [], nextId := 0, now := 0 } ∧
    (chatWithLexi { msgs := [], convs := [], nextId := 0, now := 0 } "hi" 42
        (fun _ => Except.ok "re")).2
      = Except.error (aiFailure "TypeError: reading messages of null") ∧
    (aiFailure "TypeError: reading messages of null").status = 500 ∧
    ¬(aiFailure "TypeError: reading messages of null").status = 404 := by
  refine ⟨rfl, rfl, rfl, rfl, by decide⟩

/-- C1 amended: with a conversation id absent from the store,
`updateConversation` returns `none` instead of raising any error, and a
turn submitted against that id fails with the generic wrapped 500 error
(`aiFailure`), the user message having already been persisted as an
orphan. -/
theorem updateConversation_missing_returns_null (s : Store) (cid mid : Nat)
    (input : String) (llm : List Turn → Except String String)
    (h : lookupConv s cid = none) :
    updateConversation s cid mid = (s, none) ∧
    (chatWithLexi s input cid llm).2 =
      Except.error (aiFailure "TypeError: reading messages of null") ∧
    (chatWithLexi s input cid llm).1 = (newMessage s "user" input cid).1 := by
  have h1 : lookupConv (newMessage s "user" input cid).1 cid = none := h
  have hm := updateConversation_missing ((newMessage s "user" input cid).1) cid
    ((newMessage s "user" input cid).2.id) h1
  refine ⟨updateConversation_missing s cid mid h, ?_, ?_⟩
  · simp only [chatWithLexi, hm]
  · simp only [chatWithLexi, hm]

/-- C6: every engagement bucket query counts a conversation exactly when it
belongs to the owner, lies in the bucket's time range, and has strictly
more than 5 messages; in particular a 5-message conversation is excluded
from every bucket and an in-range 6-message conversation is included. -/
theorem kidStats_substantive_threshold (s : Store) (kid : Nat) (start stop : Int)
    (c : Conversation) :
    (c ∈ chatsSince s kid start ↔
      c ∈ s.convs ∧ c.owner = kid ∧ start ≤ c.created_at ∧ 5 < c.messages.length) ∧
    (c ∈ chatsBetween s kid start stop ↔
      c ∈ s.convs ∧ c.owner = kid ∧ start ≤ c.created_at ∧ c.created_at < stop ∧
        5 < c.messages.length) ∧
    (c.messages.length = 5 →
      c ∉ chatsSince s kid start ∧ c ∉ chatsBetween s kid start stop) ∧
    (c.messages.length = 6 → c ∈ s.convs → c.owner = kid → start ≤ c.created_at →
      c ∈ chatsSince s kid start ∧
        (c.created_at < stop → c ∈ chatsBetween s kid start stop)) := by
  have h1 : c ∈ chatsSince s kid start ↔
      c ∈ s.convs ∧ c.owner = kid ∧ start ≤ c.created_at ∧ 5 < c.messages.length := by
    simp [chatsSince, List.mem_filter, substantive, and_assoc]
  have h2 : c ∈ chatsBetween s kid start stop ↔
      c ∈ s.convs ∧ c.owner = kid ∧ start ≤ c.created_at ∧ c.created_at < stop ∧
        5 < c.messages.length := by
    simp [chatsBetween, List.mem_filter, substantive, and_assoc]
  refine ⟨h1, h2, ?_, ?_⟩
  · intro h5
    constructor
    · intro hmem
      have := (h1.mp hmem).2.2.2
      omega
    · intro hmem
      have := (h2.mp hmem).2.2.2.2
      omega
  · intro h6 hmem hown hge
    exact ⟨h1.mpr ⟨hmem, hown, hge, by omega⟩,
      fun hlt => h2.mpr ⟨hmem, hown, hge, hlt, by omega⟩⟩

/-- C3 witness: a 23-turn history yields a 20-entry window equal to the
last 20 turns, and a 3-turn history is passed through whole. -/
theorem contextWindow_last_twenty_witness :
    ((contextWindow (List.replicate 23 demoTurn)).length = 20 ∧
      contextWindow (List.replicate 23 demoTurn)
        = ((List.replicate 23 demoTurn).reverse.take 20).reverse) ∧
    contextWindow (List.replicate 3 demoTurn) = List.replicate 3 demoTurn :=
  ⟨(contextWindow_last_twenty (List.replicate 23 demoTurn)).1 (by decide),
   (contextWindow_last_twenty (List.replicate 3 demoTurn)).2 (by decide)⟩

/-- C9 witness: a 4097-character input is rejected with the too-long error
and the store is untouched; a short input proceeds into `chatWithLexi`. -/
theorem postText_validation_witness :
    postText demoStore (some 0) (JsInput.str longText) (fun _ => Except.ok "re")
      = (demoStore, Except.error inputTooLongError) ∧
    postText demoStore (some 0) (JsInput.str "hi") (fun _ => Except.ok "re")
      = chatWithLexi demoStore "hi" 0 (fun _ => Except.ok "re") := by
  have hlen : longText.length = 4097 := by
    show (List.replicate 4097 'a').length = 4097
    rw [List.length_replicate]
  exact ⟨(postText_validation demoStore 0 longText (fun _ => Except.ok "re")).2.2.1
      (by omega),
    (postText_validation demoStore 0 "hi" (fun _ => Except.ok "re")).2.2.2
      (by decide) (by decide)⟩

/-- C10 witness: a 1001-character transcription passes the voice
validation because the length guard is always false. -/
theorem voiceLengthGuard_always_false_witness :
    voiceLengthGuard longTranscript = false ∧
    voiceValidate (JsInput.str longTranscript) = none := by
  have hlen : longTranscript.length = 1001 := by
    show (List.replicate 1001 'x').length = 1001
    rw [List.length_replicate]
  exact voiceLengthGuard_always_false longTranscript
    (fun h => by rw [h] at hlen; exact absurd hlen (by decide))

/-- C1 witness for the amended claim, at a store that has no conversation
with id 42. -/
theorem updateConversation_missing_returns_null_witness :
    updateConversation demoStore 42 7 = (demoStore, none) ∧
    (chatWithLexi demoStore "hi" 42 (fun _ => Except.ok "re")).2 =
      Except.error (aiFailure "TypeError: reading messages of null") ∧
    (chatWithLexi demoStore "hi" 42 (fun _ => Except.ok "re")).1
      = (newMessage demoStore "user" "hi" 42).1 :=
  updateConversation_missing_returns_null demoStore 42 7 "hi"
    (fun _ => Except.ok "re") (by decide)

/-- C6 witness: a 6-message conversation created at time 10 is counted by
a bucket starting at 0 and by the bounded bucket ending at 100. -/
theorem kidStats_substantive_threshold_witness :
    demoConv6 ∈ chatsSince statsStore 7 0 ∧
    (demoConv6.created_at < 100 → demoConv6 ∈ chatsBetween statsStore 7 0 100) :=
  (kidStats_substantive_threshold statsStore 7 0 100 demoConv6).2.2.2
    (by decide) (by decide) (by decide) (by decide)

/-- C5: appending the same message id twice is idempotent: the second
`updateConversation` call returns the conversation with an unchanged
reference list and the same resolved list, and the message occurs exactly
once in that resolved (populated, `created_at`-sorted) list. -/
theorem appendMessage_idempotent_by_id (s : Store) (cid mid : Nat)
    (c : Conversation) (m : Message)
    (hc : lookupConv s cid = some c) (hnd : c.messages.Nodup)
    (hm : lookupMsg s mid = some m) :
    ∃ r1 r2 : Conversation × List Message,
      (updateConversation s cid mid).2 = some r1 ∧
      (updateConversation (updateConversation s cid mid).1 cid mid).2 = some r2 ∧
      r2.1.messages = r1.1.messages ∧
      r2.2 = r1.2 ∧
      (r2.2.filter (fun x => x.id == mid)).length = 1 := by
  have hcid : c.id = cid := lookupConv_id s cid c hc
  have hid1 : (appended c mid).id = cid := hcid
  have h1 := updateConversation_found s cid mid c hc
  have hlk1 : lookupConv (updatedStore s cid (appended c mid)) cid
      = some (appended c mid) :=
    lookupConv_updatedStore s cid c (appended c mid) hc hid1
  have h2 := updateConversation_found (updatedStore s cid (appended c mid)) cid mid
    (appended c mid) hlk1
  have hno : appended (appended c mid) mid = appended c mid :=
    appended_of_mem (mem_addToSet_self c.messages mid)
  rw [hno] at h2
  have hcount : (appended c mid).messages.count mid = 1 := by
    show (addToSet c.messages mid).count mid = 1
    by_cases hmm : mid ∈ c.messages
    · rw [addToSet_of_mem hmm]
      exact List.count_eq_one_of_mem hnd hmm
    · rw [addToSet_of_not_mem hmm]
      rw [List.count_append, List.count_eq_zero_of_not_mem hmm]
      simp
  refine ⟨(appended c mid,
      resolveMessages (updatedStore s cid (appended c mid)) (appended c mid)),
    (appended c mid,
      resolveMessages
        (updatedStore (updatedStore s cid (appended c mid)) cid (appended c mid))
        (appended c mid)),
    ?_, ?_, rfl, rfl, ?_⟩
  · rw [h1]
  · rw [h1]
    show (updateConversation (updatedStore s cid (appended c mid)) cid mid).2 = _
    rw [h2]
  · show ((resolveMessages s (appended c mid)).filter
        (fun x : Message => x.id == mid)).length = 1
    have hperm : List.Perm
        ((resolveMessages s (appended c mid)).filter (fun x : Message => x.id == mid))
        (((appended c mid).messages.filterMap (lookupMsg s)).filter
          (fun x : Message => x.id == mid)) :=
      (List.mergeSort_perm ((appended c mid).messages.filterMap (lookupMsg s))
        byCreatedAt).filter _
    rw [hperm.length_eq, filterMap_lookup_count s mid m hm, hcount]

/-- C5 witness: appending message 0 twice to the (initially empty)
conversation 0 of `idemStore`. -/
theorem appendMessage_idempotent_by_id_witness :
    ∃ r1 r2 : Conversation × List Message,
      (updateConversation idemStore 0 0).2 = some r1 ∧
      (updateConversation (updateConversation idemStore 0 0).1 0 0).2 = some r2 ∧
      r2.1.messages = r1.1.messages ∧
      r2.2 = r1.2 ∧
      (r2.2.filter (fun x => x.id == 0)).length = 1 :=
  appendMessage_idempotent_by_id idemStore 0 0 idemConv idemMsg
    rfl List.nodup_nil rfl

theorem chatWithLexi_run (s : Store) (cid : Nat) (c : Conversation) (input : String)
    (hwf : s.WF) (hc : lookupConv s cid = some c) :
    ∃ turns : List Turn, ∀ llm : List Turn → Except String String,
      chatWithLexi s input cid llm =
        match llm (contextWindow turns) with
        | Except.error e => (afterUserStore s input cid c, Except.error (aiFailure e))
        | Except.ok reply =>
            ((updateConversation
                (newMessage (afterUserStore s input cid c) "assistant" reply cid).1 cid
                (newMessage (afterUserStore s input cid c) "assistant" reply cid).2.id).1,
             Except.ok reply) := by
  have h1 : lookupConv (newMessage s "user" input cid).1 cid = some c := hc
  have hupd := updateConversation_found ((newMessage s "user" input cid).1) cid
    ((newMessage s "user" input cid).2.id) c h1
  have hcontent : ∀ m ∈ resolveMessages
      (updatedStore (newMessage s "user" input cid).1 cid
        (appended c (newMessage s "user" input cid).2.id))
      (appended c (newMessage s "user" input cid).2.id), m.content ≠ [] := by
    intro m hmem
    have hmem2 : m ∈ (appended c (newMessage s "user" input cid).2.id).messages.filterMap
        (lookupMsg (updatedStore (newMessage s "user" input cid).1 cid
          (appended c (newMessage s "user" input cid).2.id))) :=
      List.mem_mergeSort.mp hmem
    obtain ⟨x, hx, hfx⟩ := List.mem_filterMap.mp hmem2
    have hmm : m ∈ s.msgs ++ [(newMessage s "user" input cid).2] :=
      lookupMsg_mem _ x m hfx
    rcases List.mem_append.mp hmm with hold | hnew
    · exact hwf.2.2 m hold
    · have hm2 : m = (newMessage s "user" input cid).2 := by simpa using hnew
      rw [hm2]
      show ([{ type := "text", text := input }] : List ContentBlock) ≠ []
      simp
  obtain ⟨turns, hturns⟩ := mapM_toTurn_total _ hcontent
  refine ⟨turns, fun llm => ?_⟩
  simp only [chatWithLexi, hupd, hturns, afterUserStore]

/-- C2: a submitted turn that found its conversation always grows that
conversation, by exactly one message (the user's, never rolled back) when
the model call fails and by exactly two (user plus assistant) when it
succeeds; it is never a no-op. -/
theorem chatWithLexi_message_count (s : Store) (cid : Nat) (c : Conversation)
    (input reply err : String) (hwf : s.WF) (hc : lookupConv s cid = some c) :
    (∃ c1, lookupConv (chatWithLexi s input cid (fun _ => Except.error err)).1 cid = some c1
        ∧ c1.messages.length = c.messages.length + 1) ∧
    (chatWithLexi s input cid (fun _ => Except.error err)).2
        = Except.error (aiFailure err) ∧
    (∃ c2, lookupConv (chatWithLexi s input cid (fun _ => Except.ok reply)).1 cid = some c2
        ∧ c2.messages.length = c.messages.length + 2) ∧
    (chatWithLexi s input cid (fun _ => Except.ok reply)).2 = Except.ok reply := by
  obtain ⟨turns, hrun⟩ := chatWithLexi_run s cid c input hwf hc
  have hcid : c.id = cid := lookupConv_id s cid c hc
  have hcmem : c ∈ s.convs := lookupConv_mem s cid c hc
  have hfresh1 : s.nextId ∉ c.messages := fun hmm =>
    lt_irrefl s.nextId (hwf.2.1 c hcmem s.nextId hmm)
  have happ1 : (appended c (newMessage s "user" input cid).2.id).messages
      = c.messages ++ [s.nextId] := by
    show addToSet c.messages s.nextId = c.messages ++ [s.nextId]
    exact addToSet_of_not_mem hfresh1
  have hlkA : lookupConv (afterUserStore s input cid c) cid
      = some (appended c (newMessage s "user" input cid).2.id) :=
    lookupConv_updatedStore (newMessage s "user" input cid).1 cid c
      (appended c (newMessage s "user" input cid).2.id) hc hcid
  have hfail : chatWithLexi s input cid (fun _ => Except.error err)
      = (afterUserStore s input cid c, Except.error (aiFailure err)) := hrun _
  have hsucc : chatWithLexi s input cid (fun _ => Except.ok reply)
      = ((updateConversation
            (newMessage (afterUserStore s input cid c) "assistant" reply cid).1 cid
            (newMessage (afterUserStore s input cid c) "assistant" reply cid).2.id).1,
         Except.ok reply) := hrun _
  have h2 : lookupConv (newMessage (afterUserStore s input cid c) "assistant" reply cid).1
      cid = some (appended c (newMessage s "user" input cid).2.id) := hlkA
  have hupd2 := updateConversation_found
    ((newMessage (afterUserStore s input cid c) "assistant" reply cid).1) cid
    ((newMessage (afterUserStore s input cid c) "assistant" reply cid).2.id)
    (appended c (newMessage s "user" input cid).2.id) h2
  have hfresh2 : s.nextId + 1 ∉ (appended c (newMessage s "user" input cid).2.id).messages := by
    rw [happ1]
    intro hmm
    rcases List.mem_append.mp hmm with hold | hnew
    · have := hwf.2.1 c hcmem _ hold
      omega
    · simp at hnew
  have happ2 : (appended (appended c (newMessage s "user" input cid).2.id)
        (newMessage (afterUserStore s input cid c) "assistant" reply cid).2.id).messages
      = (c.messages ++ [s.nextId]) ++ [s.nextId + 1] := by
    show addToSet (appended c (newMessage s "user" input cid).2.id).messages (s.nextId + 1)
      = (c.messages ++ [s.nextId]) ++ [s.nextId + 1]
    rw [addToSet_of_not_mem hfresh2, happ1]
  refine ⟨⟨appended c (newMessage s "user" input cid).2.id, ?_, ?_⟩, ?_, ?_, ?_⟩
  · rw [hfail]
    exact hlkA
  · rw [happ1]
    simp
  · rw [hfail]
  · refine ⟨appended (appended c (newMessage s "user" input cid).2.id)
      (newMessage (afterUserStore s input cid c) "assistant" reply cid).2.id, ?_, ?_⟩
    · rw [hsucc]
      show lookupConv (updateConversation
        (newMessage (afterUserStore s input cid c) "assistant" reply cid).1 cid
        (newMessage (afterUserStore s input cid c) "assistant" reply cid).2.id).1 cid = _
      rw [hupd2]
      exact lookupConv_updatedStore
        ((newMessage (afterUserStore s input cid c) "assistant" reply cid).1) cid
        (appended c (newMessage s "user" input cid).2.id) _ h2 hcid
    · rw [happ2]
      simp
  · rw [hsucc]

/-- C2 witness: one failed turn and one successful turn against the empty
conversation of `countStore`. -/
theorem chatWithLexi_message_count_witness :
    (∃ c1, lookupConv (chatWithLexi countStore "hi" 3 (fun _ => Except.error "boom")).1 3
        = some c1 ∧ c1.messages.length = demoConvForCount.messages.length + 1) ∧
    (chatWithLexi countStore "hi" 3 (fun _ => Except.error "boom")).2
        = Except.error (aiFailure "boom") ∧
    (∃ c2, lookupConv (chatWithLexi countStore "hi" 3 (fun _ => Except.ok "re")).1 3
        = some c2 ∧ c2.messages.length = demoConvForCount.messages.length + 2) ∧
    (chatWithLexi countStore "hi" 3 (fun _ => Except.ok "re")).2 = Except.ok "re" :=
  chatWithLexi_message_count countStore 3 demoConvForCount "hi" "re" "boom"
    ⟨by simp [countStore], by simp [countStore, demoConvForCount], by simp [countStore]⟩
    rfl

end LexiChat
